import Mathlib

/-!
Formal model of the declarative video composition and timeline rendering
engine (the Remotion composition in src/remotion: Composition.tsx and the
overlay components KaraokeText.tsx, BigTitle.tsx, ImageOverlay.tsx,
LowerThird.tsx).

Conventions of the embedding:
* JavaScript numbers that hold frame counts are modelled as integers,
  and all other numeric values as rationals.
* CSS styles are modelled structurally (records and small inductive
  types) rather than as strings; the string concatenation order of the
  filter chain is kept as the order of a list.
* Values produced by irrational library primitives (Math.sin inside the
  glitch transition, Remotion's damped spring) are kept symbolic: they
  are pure functions of their arguments, and no claim depends on their
  numeric value, only on where and when they appear.
-/

/-! ## Data model (ProjectManifest and its tracks) -/

/-- Transition kinds of a video clip, the closed TransitionType union. -/
inductive TransitionType
  | cut
  | fade
  | slideLeft
  | slideRight
  | zoom
  | glitch
deriving DecidableEq, Repr

/-- Effect kinds of a clip effect entry. -/
inductive EffectType
  | brightness
  | contrast
  | saturation
  | blur
  | grayscale
deriving DecidableEq, Repr

/-- One entry of the effects list of a video clip. -/
structure ClipEffect where
  type : EffectType
  value : ℚ
deriving DecidableEq, Repr

/-- A video clip of the manifest video track. -/
structure VideoClip where
  id : String
  url : String
  startFrame : ℤ
  durationFrames : ℤ
  layer : ℤ
  transition : Option TransitionType := none
  effects : Option (List ClipEffect) := none
deriving DecidableEq, Repr

/-- An audio clip of the manifest audio track. -/
structure AudioClip where
  id : String
  url : String
  startFrame : ℤ
  durationFrames : ℤ
  volume : ℚ
deriving DecidableEq, Repr

/-- A per-word timing entry used by KaraokeText, in seconds of the
overlay-local clock. -/
structure WordTimestamp where
  word : String
  start : ℚ
  «end» : ℚ
deriving DecidableEq, Repr

/-- Vertical placement of a text overlay. -/
inductive OverlayPosition
  | top
  | center
  | bottom
deriving DecidableEq, Repr

/-- Horizontal placement of a lower third. -/
inductive LowerThirdPosition
  | left
  | center
  | right
deriving DecidableEq, Repr

/-- Props of the KaraokeText overlay; optional fields carry the
destructuring defaults of the component when absent. -/
structure KaraokeTextProps where
  wordTimestamps : List WordTimestamp
  fontSize : Option ℚ := none
  fontFamily : Option String := none
  color : Option String := none
  highlightColor : Option String := none
  backgroundColor : Option String := none
  position : Option OverlayPosition := none
deriving DecidableEq, Repr

/-- Entrance animations of the BigTitle overlay. -/
inductive BigTitleAnimation
  | fade
  | slideUp
  | scale
  | typewriter
deriving DecidableEq, Repr

/-- Props of the BigTitle overlay. -/
structure BigTitleProps where
  text : String
  fontSize : Option ℚ := none
  fontFamily : Option String := none
  color : Option String := none
  animation : Option BigTitleAnimation := none
  position : Option OverlayPosition := none
deriving DecidableEq, Repr

/-- Props of the ImageOverlay overlay. -/
structure ImageOverlayProps where
  src : String
  width : Option ℚ := none
  height : Option ℚ := none
  x : Option ℚ := none
  y : Option ℚ := none
  opacity : Option ℚ := none
deriving DecidableEq, Repr

/-- Props of the LowerThird overlay. -/
structure LowerThirdProps where
  title : String
  subtitle : Option String := none
  backgroundColor : Option String := none
  textColor : Option String := none
  position : Option LowerThirdPosition := none
deriving DecidableEq, Repr

/-- Component tags of the overlay track, the closed ComponentType union. -/
inductive ComponentType
  | karaokeText
  | bigTitle
  | imageOverlay
  | lowerThird
deriving DecidableEq, Repr

/-- Variant-specific props payload of a component overlay. -/
inductive OverlayProps
  | karaoke (p : KaraokeTextProps)
  | big (p : BigTitleProps)
  | image (p : ImageOverlayProps)
  | lower (p : LowerThirdProps)
deriving DecidableEq, Repr

/-- A component overlay of the manifest components track. -/
structure ComponentOverlay where
  id : String
  startFrame : ℤ
  durationFrames : ℤ
  layer : ℤ
  component : ComponentType
  props : OverlayProps
deriving DecidableEq, Repr

/-- Global settings of a manifest. -/
structure GlobalSettings where
  backgroundColor : String
deriving DecidableEq, Repr

/-- The three tracks of a manifest. -/
structure Tracks where
  video : List VideoClip
  audio : List AudioClip
  components : List ComponentOverlay
deriving DecidableEq, Repr

/-- The root document describing one project timeline. -/
structure ProjectManifest where
  version : ℤ
  tracks : Tracks
  globalSettings : GlobalSettings
deriving DecidableEq, Repr

/-- The fallback manifest built inline by VideoComposition when the
manifest prop is null or undefined: three empty track arrays and a black
background. -/
def emptyManifest : ProjectManifest :=
  { version := 1
    tracks := { video := [], audio := [], components := [] }
    globalSettings := { backgroundColor := "#000000" } }

/-! ## Remotion primitives used by the composition -/

/-- Modelled from the spec: Remotion's interpolate with a two-point input
range maps x linearly from the input range onto the output range;
extrapolation options clamp the input at the corresponding end of the
range before the linear map (the default behaviour extends linearly).
Every call site in the source uses a strictly increasing input range, as
Remotion requires. -/
def interpolate (x i1 i2 o1 o2 : ℚ) (clampLeft clampRight : Bool) : ℚ :=
  let xr := if clampRight then min x i2 else x
  let xc := if clampLeft then max xr i1 else xr
  o1 + (xc - i1) / (i2 - i1) * (o2 - o1)

/-- Modelled from the spec: a Remotion Sequence with start s and duration
d renders its children exactly at the global frames f with
s ≤ f < s + d, and inside it useCurrentFrame returns the local frame
f - s (0-indexed). -/
def sequenceActive (startFrame durationFrames f : ℤ) : Bool :=
  decide (startFrame ≤ f ∧ f < startFrame + durationFrames)

/-- Progress value of Remotion's damped spring, kept symbolic: it is a
pure function of the recorded arguments (frame, fps and the damping and
stiffness of the config), which is all any claim needs. -/
structure SpringValue where
  frame : ℤ
  fps : ℚ
  damping : ℚ
  stiffness : ℚ
deriving DecidableEq, Repr

/-! ## Transition and effect engine (calculateTransition, VideoClipComponent) -/

/-- CSS 2D transforms produced by the transition engine. The sinJitterPx
constructor stands for translateX(sin(frame * 10) * 5 px) of the glitch
branch, keeping the sine symbolic. -/
inductive CSSTransform
  | translateXPct (v : ℚ)
  | scaleBy (v : ℚ)
  | sinJitterPx (frame : ℤ)
deriving DecidableEq, Repr

/-- One primitive of a CSS filter chain. -/
inductive CSSFilterAtom
  | hueRotate (deg : ℚ)
  | brightness (v : ℚ)
  | contrast (v : ℚ)
  | saturate (v : ℚ)
  | blur (v : ℚ)
  | grayscale (v : ℚ)
deriving DecidableEq, Repr

/-- Structural model of the React.CSSProperties records returned by
calculateTransition and placed on the clip's AbsoluteFill; an absent key
is none. -/
structure TransitionStyle where
  opacity : Option ℚ := none
  transform : Option CSSTransform := none
  filter : Option (List CSSFilterAtom) := none
deriving DecidableEq, Repr

/-- Translation of calculateTransition of Composition.tsx: below
transitionStart every transition returns the plain full-opacity style;
inside the window the style is selected per transition kind from the
progress value (local frame interpolated from the window onto [0, 1],
clamped on the right). -/
def calculateTransition (transition : TransitionType) (frame transitionStart totalFrames : ℤ) :
    TransitionStyle :=
  if frame < transitionStart then { opacity := some 1 }
  else
    let progress := interpolate (frame : ℚ) (transitionStart : ℚ) (totalFrames : ℚ) 0 1
      false true
    match transition with
    | .fade => { opacity := some (interpolate progress 0 1 1 0 false false) }
    | .slideLeft =>
        { transform := some (.translateXPct (interpolate progress 0 1 0 (-100) false false)) }
    | .slideRight =>
        { transform := some (.translateXPct (interpolate progress 0 1 0 100 false false)) }
    | .zoom =>
        { transform := some (.scaleBy (interpolate progress 0 1 1 (3 / 2) false false))
          opacity := some (interpolate progress 0 1 1 0 false false) }
    | .glitch =>
        { transform := some (.sinJitterPx frame)
          filter := if (1 / 2 : ℚ) < progress then some [.hueRotate 90] else none }
    | .cut => { opacity := some 1 }

/-- Names the filter primitive contributed by one effects entry; every
branch of the switch of VideoClipComponent appends exactly one. -/
def effectFilterAtom (e : ClipEffect) : CSSFilterAtom :=
  match e.type with
  | .brightness => .brightness e.value
  | .contrast => .contrast e.value
  | .saturation => .saturate e.value
  | .blur => .blur e.value
  | .grayscale => .grayscale e.value

/-- Filter chain accumulated from the clip effects list, in list order;
an absent effects list contributes nothing. -/
def effectsFilter (effects : Option (List ClipEffect)) : List CSSFilterAtom :=
  (effects.getD []).map effectFilterAtom

/-- Style of the AbsoluteFill rendered by VideoClipComponent at a local
frame: the transition style spread first, then the filter key written
over it with the effects chain, or with no value at all when the chain is
empty (the JavaScript expression filterStyle or-else undefined). In
particular a filter coming from the transition style is always
overwritten. -/
def videoClipStyle (clip : VideoClip) (frame : ℤ) : TransitionStyle :=
  let transitionStart := clip.durationFrames - 15
  let transitionStyle :=
    calculateTransition (clip.transition.getD .cut) frame transitionStart clip.durationFrames
  let filterChain := effectsFilter clip.effects
  { transitionStyle with
    filter := if filterChain.isEmpty then none else some filterChain }

/-! ## Overlay renderers -/

/-- Frame-dependent attributes of one rendered karaoke word span. -/
structure WordSpan where
  text : String
  color : String
  bold : Bool
  glow : Bool
deriving DecidableEq, Repr

/-- Activity test of one karaoke word, the isActive expression of
KaraokeText: the current time lies in the closed interval from start to
end of the word. -/
def karaokeIsActive (t : ℚ) (w : WordTimestamp) : Bool :=
  decide (w.start ≤ t ∧ t ≤ w.«end»)

/-- Past test of one karaoke word, the isPast expression of KaraokeText:
the current time lies strictly beyond the end of the word. -/
def karaokeIsPast (t : ℚ) (w : WordTimestamp) : Bool :=
  decide (w.«end» < t)

/-- Span rendered for one word by KaraokeText: highlight colour when
active or past, bold and glowing exactly when active, and a trailing
space on every word but the last. -/
def karaokeSpan (color highlightColor : String) (t : ℚ) (w : WordTimestamp)
    (isLast : Bool) : WordSpan :=
  let isActive := karaokeIsActive t w
  let isPast := karaokeIsPast t w
  { text := w.word ++ (if isLast then "" else " ")
    color := if isActive || isPast then highlightColor else color
    bold := isActive
    glow := isActive }

/-- Word spans rendered by KaraokeText for a word list, in order; only
the final word receives the last-word flag (the index against length
minus one comparison of the source). -/
def karaokeSpans (color highlightColor : String) (t : ℚ) :
    List WordTimestamp → List WordSpan
  | [] => []
  | [w] => [karaokeSpan color highlightColor t w true]
  | w :: ws@(_ :: _) => karaokeSpan color highlightColor t w false ::
      karaokeSpans color highlightColor t ws

/-- Full frame-dependent output of the KaraokeText overlay at a local
frame: the word spans at current time frame / fps, with the colour
defaults of the component applied. -/
def karaokeRender (p : KaraokeTextProps) (frame : ℤ) (fps : ℚ) : List WordSpan :=
  karaokeSpans (p.color.getD "#ffffff") (p.highlightColor.getD "#ffff00")
    ((frame : ℚ) / fps) p.wordTimestamps

/-- Character-reveal count of the BigTitle typewriter animation: the
floor of the local frame interpolated from [0, 3 * length] onto
[0, length], clamped on the right. -/
def bigTitleCharsToShow (text : String) (frame : ℤ) : ℤ :=
  ⌊interpolate (frame : ℚ) 0 (3 * text.length) 0 (text.length) false true⌋

/-- Animation-dependent style of the BigTitle heading; spring values are
kept symbolic with the damping and stiffness preset of each branch. -/
inductive BigTitleStyle
  | fadeIn (opacity : ℚ)
  | slideUp (springProgress : SpringValue) (opacity : ℚ)
  | scaleIn (springProgress : SpringValue) (opacity : ℚ)
  | typewriter (charsToShow : ℤ)
deriving DecidableEq, Repr

/-- Translation of getAnimationStyles of BigTitle.tsx. The slide-up and
scale branches also derive a translation (resp. scale) by interpolating
the spring progress onto [100, 0] (resp. [0.5, 1]); carrying the
symbolic spring progress retains that information. -/
def bigTitleAnimationStyle (animation : BigTitleAnimation) (text : String)
    (frame : ℤ) (fps : ℚ) : BigTitleStyle :=
  match animation with
  | .fade => .fadeIn (interpolate (frame : ℚ) 0 20 0 1 false true)
  | .slideUp => .slideUp ⟨frame, fps, 12, 100⟩ (interpolate (frame : ℚ) 0 10 0 1 false true)
  | .scale => .scaleIn ⟨frame, fps, 10, 80⟩ (interpolate (frame : ℚ) 0 10 0 1 false true)
  | .typewriter => .typewriter (bigTitleCharsToShow text frame)

/-- Translation of the JavaScript slice from index 0: the first k
characters of the string. -/
def jsSlice (s : String) (k : ℕ) : String :=
  String.mk (s.toList.take k)

/-- Text placed in the heading by BigTitle: the typewriter animation
shows the first charsToShow characters, every other animation the whole
text. -/
def bigTitleDisplayText (animation : BigTitleAnimation) (text : String) (frame : ℤ) :
    String :=
  if animation = .typewriter then jsSlice text (bigTitleCharsToShow text frame).toNat
  else text

/-- Frame-dependent output of the BigTitle overlay. -/
structure BigTitleOut where
  style : BigTitleStyle
  displayText : String
deriving DecidableEq, Repr

/-- Full render of the BigTitle overlay at a local frame, with the
animation default fade of the component applied. -/
def bigTitleRender (p : BigTitleProps) (frame : ℤ) (fps : ℚ) : BigTitleOut :=
  let animation := p.animation.getD .fade
  { style := bigTitleAnimationStyle animation p.text frame fps
    displayText := bigTitleDisplayText animation p.text frame }

/-- Frame-dependent output of the ImageOverlay overlay. -/
structure ImageOverlayOut where
  x : ℚ
  y : ℚ
  opacity : ℚ
  width : ℚ
  height : Option ℚ
deriving DecidableEq, Repr

/-- Render of the ImageOverlay overlay at a local frame: a 15-frame
linear fade from 0 to the configured target opacity, clamped on the
right, at the configured centre-anchored position. -/
def imageOverlayRender (p : ImageOverlayProps) (frame : ℤ) : ImageOverlayOut :=
  { x := p.x.getD 50
    y := p.y.getD 50
    opacity := interpolate (frame : ℚ) 0 15 0 (p.opacity.getD 1) false true
    width := p.width.getD 200
    height := p.height }

/-- Frame-dependent output of the LowerThird overlay. -/
structure LowerThirdOut where
  slideProgress : SpringValue
  title : String
  subtitleOpacity : Option ℚ
  position : LowerThirdPosition
deriving DecidableEq, Repr

/-- Render of the LowerThird overlay at a local frame: a symbolic spring
slide, and, when a non-empty subtitle is configured (JavaScript
truthiness of the subtitle string), its opacity fading in over frames 10
to 20. -/
def lowerThirdRender (p : LowerThirdProps) (frame : ℤ) (fps : ℚ) : LowerThirdOut :=
  { slideProgress := ⟨frame, fps, 15, 100⟩
    title := p.title
    subtitleOpacity :=
      match p.subtitle with
      | none => none
      | some s => if s = "" then none
          else some (interpolate (frame : ℚ) 10 20 0 1 false true)
    position := p.position.getD .left }

/-- Output of rendering one component overlay for one frame; blank is
the nothing-rendered outcome. -/
inductive OverlayOutput
  | karaoke (spans : List WordSpan)
  | bigTitle (out : BigTitleOut)
  | image (out : ImageOverlayOut)
  | lowerThird (out : LowerThirdOut)
  | blank
deriving DecidableEq, Repr

/-- Translation of ComponentRenderer of Composition.tsx: dispatch on the
component tag to the matching overlay. A tag whose props payload has the
wrong variant is a configuration error rendered as nothing (spec section
7); the unknown-tag default branch of the source warns and returns null,
which is blank here. -/
def renderComponent (comp : ComponentOverlay) (frame : ℤ) (fps : ℚ) : OverlayOutput :=
  match comp.component, comp.props with
  | .karaokeText, .karaoke p => .karaoke (karaokeRender p frame fps)
  | .bigTitle, .big p => .bigTitle (bigTitleRender p frame fps)
  | .imageOverlay, .image p => .image (imageOverlayRender p frame)
  | .lowerThird, .lower p => .lowerThird (lowerThirdRender p frame fps)
  | _, _ => .blank

/-! ## Composition assembler (VideoComposition) -/

/-- Layer order on video clips, the comparator of the video track sort. -/
def videoLayerLe (a b : VideoClip) : Prop := a.layer ≤ b.layer

instance : DecidableRel videoLayerLe := fun a b => Int.decLe a.layer b.layer

instance : IsTotal VideoClip videoLayerLe := ⟨fun a b => le_total a.layer b.layer⟩

instance : IsTrans VideoClip videoLayerLe := ⟨fun _ _ _ h h2 => le_trans h h2⟩

/-- Layer order on component overlays, the comparator of the components
track sort. -/
def overlayLayerLe (a b : ComponentOverlay) : Prop := a.layer ≤ b.layer

instance : DecidableRel overlayLayerLe := fun a b => Int.decLe a.layer b.layer

instance : IsTotal ComponentOverlay overlayLayerLe := ⟨fun a b => le_total a.layer b.layer⟩

instance : IsTrans ComponentOverlay overlayLayerLe := ⟨fun _ _ _ h h2 => le_trans h h2⟩

/-- Video track sorted ascending by layer; the JavaScript sort with the
comparator on layers is stable (ECMAScript), modelled by a stable
insertion sort. -/
def sortedVideoClips (m : ProjectManifest) : List VideoClip :=
  m.tracks.video.insertionSort videoLayerLe

/-- Components track sorted ascending by layer, stably. -/
def sortedComponents (m : ProjectManifest) : List ComponentOverlay :=
  m.tracks.components.insertionSort overlayLayerLe

/-- Activity of a video clip Sequence at a global frame. -/
def clipActive (f : ℤ) (c : VideoClip) : Bool :=
  sequenceActive c.startFrame c.durationFrames f

/-- Activity of a component overlay Sequence at a global frame. -/
def overlayActive (f : ℤ) (c : ComponentOverlay) : Bool :=
  sequenceActive c.startFrame c.durationFrames f

/-- Activity of an audio clip Sequence at a global frame. -/
def audioActive (f : ℤ) (a : AudioClip) : Bool :=
  sequenceActive a.startFrame a.durationFrames f

/-- One painted entry of the video layer stack of a frame. -/
structure RenderedClip where
  id : String
  url : String
  layer : ℤ
  localFrame : ℤ
  style : TransitionStyle
deriving DecidableEq, Repr

/-- One painted entry of the overlay stack of a frame. -/
structure RenderedOverlay where
  id : String
  layer : ℤ
  localFrame : ℤ
  output : OverlayOutput
deriving DecidableEq, Repr

/-- One active audio entry of a frame, exposed for the mixing backend. -/
structure ActiveAudio where
  id : String
  url : String
  volume : ℚ
deriving DecidableEq, Repr

/-- Full output of one rendered frame: background fill plus the three
ordered lists produced by the composition. -/
structure FrameOutput where
  backgroundColor : String
  videoLayers : List RenderedClip
  overlayLayers : List RenderedOverlay
  audio : List ActiveAudio
deriving DecidableEq, Repr

/-- Painted entry of one video clip at a global frame, carrying the
style computed by VideoClipComponent at the clip-local frame. -/
def renderVideoClip (f : ℤ) (c : VideoClip) : RenderedClip :=
  { id := c.id
    url := c.url
    layer := c.layer
    localFrame := f - c.startFrame
    style := videoClipStyle c (f - c.startFrame) }

/-- Painted entry of one component overlay at a global frame. -/
def renderOverlay (f : ℤ) (fps : ℚ) (c : ComponentOverlay) : RenderedOverlay :=
  { id := c.id
    layer := c.layer
    localFrame := f - c.startFrame
    output := renderComponent c (f - c.startFrame) fps }

/-- Translation of VideoComposition of Composition.tsx for one frame: a
missing manifest falls back to the empty manifest; the video and
components tracks are stable-sorted by layer and instantiated as
Sequences, of which exactly the active ones paint at this frame, in
sorted order; the audio track is instantiated unsorted and the active
entries are exposed with their volume. -/
def renderFrame (manifest : Option ProjectManifest) (f : ℤ) (fps : ℚ) : FrameOutput :=
  let m := manifest.getD emptyManifest
  { backgroundColor := m.globalSettings.backgroundColor
    videoLayers := ((sortedVideoClips m).filter (clipActive f)).map (renderVideoClip f)
    overlayLayers :=
      ((sortedComponents m).filter (overlayActive f)).map (renderOverlay f fps)
    audio := (m.tracks.audio.filter (audioActive f)).map
      (fun a => { id := a.id, url := a.url, volume := a.volume }) }

/-! ## Concrete example inputs -/

/-- Clip on layer 3, first in the example manifest array. -/
def exampleClipL3 : VideoClip :=
  { id := "a", url := "https://m/a.mp4", startFrame := 0, durationFrames := 60, layer := 3 }

/-- Clip on layer 1, second in the example manifest array. -/
def exampleClipL1 : VideoClip :=
  { id := "b", url := "https://m/b.mp4", startFrame := 0, durationFrames := 60, layer := 1 }

/-- Clip on layer 2, third in the example manifest array. -/
def exampleClipL2 : VideoClip :=
  { id := "c", url := "https://m/c.mp4", startFrame := 0, durationFrames := 60, layer := 2 }

/-- Manifest whose video track holds clips with layers 3, 1, 2 sharing one
time window. -/
def exampleLayerManifest : ProjectManifest :=
  { version := 1
    tracks := { video := [exampleClipL3, exampleClipL1, exampleClipL2], audio := [],
                components := [] }
    globalSettings := { backgroundColor := "#000000" } }

/-- Clip with startFrame 10 and durationFrames 20. -/
def exampleWindowClip : VideoClip :=
  { id := "w", url := "https://m/w.mp4", startFrame := 10, durationFrames := 20, layer := 0 }

/-- Manifest holding only the window example clip. -/
def exampleWindowManifest : ProjectManifest :=
  { version := 1
    tracks := { video := [exampleWindowClip], audio := [], components := [] }
    globalSettings := { backgroundColor := "#000000" } }

/-- Clip of 100 frames with the glitch transition and no effects. -/
def exampleGlitchClip : VideoClip :=
  { id := "g", url := "https://m/g.mp4", startFrame := 0, durationFrames := 100, layer := 0,
    transition := some .glitch }

/-- Clip of 45 frames with the fade transition. -/
def exampleFadeClip : VideoClip :=
  { id := "f", url := "https://m/f.mp4", startFrame := 0, durationFrames := 45, layer := 0,
    transition := some .fade }

/-- Word Hi timed over the first half second. -/
def exampleHiWord : WordTimestamp := { word := "Hi", start := 0, «end» := 1 / 2 }

/-- Word there timed over the second half second. -/
def exampleThereWord : WordTimestamp := { word := "there", start := 1 / 2, «end» := 1 }

/-- Karaoke props of the two example words, with default colours. -/
def exampleKaraokeProps : KaraokeTextProps :=
  { wordTimestamps := [exampleHiWord, exampleThereWord] }

/-- Clip with a zero frame duration, violating the manifest invariant. -/
def exampleBadClip : VideoClip :=
  { id := "z", url := "https://m/z.mp4", startFrame := 0, durationFrames := 0, layer := 0 }

/-- Overlay with a negative frame duration, violating the manifest
invariant. -/
def exampleBadOverlay : ComponentOverlay :=
  { id := "o", startFrame := 0, durationFrames := -5, layer := 0,
    component := .bigTitle, props := .big { text := "T" } }

/-- Audio clip with a zero frame duration, violating the manifest
invariant. -/
def exampleBadAudio : AudioClip :=
  { id := "s", url := "https://m/s.mp3", startFrame := 0, durationFrames := 0, volume := 1 }

/-- Base colour of a karaoke overlay after the destructuring default. -/
def karaokeBaseColor (p : KaraokeTextProps) : String := p.color.getD "#ffffff"

/-- Highlight colour of a karaoke overlay after the destructuring default. -/
def karaokeHighlightColor (p : KaraokeTextProps) : String := p.highlightColor.getD "#ffff00"

/-- Rendering state of a karaoke word span the spec calls active: bold,
glowing and in the highlight colour. -/
def spanIsActiveStyled (s : WordSpan) (highlightColor : String) : Prop :=
  s.bold = true ∧ s.glow = true ∧ s.color = highlightColor

/-- Rendering state of a karaoke word span the spec calls past:
highlight colour without bold. -/
def spanIsPastStyled (s : WordSpan) (highlightColor : String) : Prop :=
  s.color = highlightColor ∧ s.bold = false

/-- Rendering state of a karaoke word span in the base colour, neither
bold nor glowing. -/
def spanIsBaseStyled (s : WordSpan) (color : String) : Prop :=
  s.color = color ∧ s.bold = false ∧ s.glow = false

/-! ## Theorems -/

/-- C1: rendering is deterministic. For a fixed manifest, frame number and
frame rate, evaluating the composition twice yields identical frame
output — every transform, opacity and filter value of every clip and
overlay, the glitch jitter included — because the whole per-frame
computation is a pure function of its inputs with no hidden state. -/
theorem renderFrame_deterministic (m₁ m₂ : Option ProjectManifest) (f₁ f₂ : ℤ)
    (fps₁ fps₂ : ℚ) (hm : m₁ = m₂) (hf : f₁ = f₂) (hfps : fps₁ = fps₂) :
    renderFrame m₁ f₁ fps₁ = renderFrame m₂ f₂ fps₂ := by
  subst hm
  subst hf
  subst hfps
  rfl

/-- Witness for C1 at a concrete manifest, frame and frame rate. -/
theorem renderFrame_deterministic_witness :
    renderFrame (some exampleWindowManifest) 12 30 =
      renderFrame (some exampleWindowManifest) 12 30 :=
  renderFrame_deterministic (some exampleWindowManifest) (some exampleWindowManifest)
    12 12 30 30 rfl rfl rfl

/-- C8: a missing manifest falls back to the empty manifest (three empty
track arrays, black background), and rendering any frame of the empty
manifest yields only the background-colour fill: no video clips, no
overlays, no audio entries. -/
theorem missing_manifest_fallback (f : ℤ) (fps : ℚ) :
    renderFrame none f fps = renderFrame (some emptyManifest) f fps ∧
    renderFrame none f fps =
      { backgroundColor := "#000000", videoLayers := [], overlayLayers := [],
        audio := [] } :=
  ⟨rfl, rfl⟩

/-- C2: activation window. A clip of a manifest with pairwise distinct clip
ids paints at exactly the global frames f with
startFrame ≤ f < startFrame + durationFrames, and the painted entry runs
on the 0-indexed local frame f - startFrame. -/
theorem clip_activation_window (m : ProjectManifest) (c : VideoClip) (f : ℤ) (fps : ℚ)
    (hmem : c ∈ m.tracks.video)
    (hids : (m.tracks.video.map VideoClip.id).Nodup) :
    (renderVideoClip f c ∈ (renderFrame (some m) f fps).videoLayers ↔
      (c.startFrame ≤ f ∧ f < c.startFrame + c.durationFrames)) ∧
    (renderVideoClip f c).localFrame = f - c.startFrame := by
  constructor
  · constructor
    · intro h
      simp only [renderFrame, Option.getD_some, List.mem_map] at h
      obtain ⟨c', hc', heq⟩ := h
      rw [List.mem_filter] at hc'
      obtain ⟨hmem', hact⟩ := hc'
      have hmem'' : c' ∈ m.tracks.video := by
        simpa [sortedVideoClips, List.mem_insertionSort] using hmem'
      have hid : c'.id = c.id := congrArg RenderedClip.id heq
      have hcc : c' = c := List.inj_on_of_nodup_map hids hmem'' hmem hid
      subst hcc
      simpa [clipActive, sequenceActive] using hact
    · intro h
      simp only [renderFrame, Option.getD_some, List.mem_map]
      refine ⟨c, ?_, rfl⟩
      rw [List.mem_filter]
      exact ⟨by simpa [sortedVideoClips, List.mem_insertionSort] using hmem,
        by simpa [clipActive, sequenceActive] using h⟩
  · rfl

/-- Witness for C2: the clip with startFrame 10 and durationFrames 20 is
painted at frames 10 and 29 and not painted at frames 9 and 30. -/
theorem clip_activation_window_witness :
    renderVideoClip 10 exampleWindowClip ∈
      (renderFrame (some exampleWindowManifest) 10 30).videoLayers ∧
    renderVideoClip 29 exampleWindowClip ∈
      (renderFrame (some exampleWindowManifest) 29 30).videoLayers ∧
    renderVideoClip 9 exampleWindowClip ∉
      (renderFrame (some exampleWindowManifest) 9 30).videoLayers ∧
    renderVideoClip 30 exampleWindowClip ∉
      (renderFrame (some exampleWindowManifest) 30 30).videoLayers := by
  refine ⟨?_, ?_, fun h => ?_, fun h => ?_⟩
  · exact (clip_activation_window exampleWindowManifest exampleWindowClip 10 30
      (by decide) (by decide)).1.mpr (by decide)
  · exact (clip_activation_window exampleWindowManifest exampleWindowClip 29 30
      (by decide) (by decide)).1.mpr (by decide)
  · exact absurd ((clip_activation_window exampleWindowManifest exampleWindowClip 9 30
      (by decide) (by decide)).1.mp h) (by decide)
  · exact absurd ((clip_activation_window exampleWindowManifest exampleWindowClip 30 30
      (by decide) (by decide)).1.mp h) (by decide)

/-- Helper: inserting an element related to everything in a list puts it
at the front. -/
theorem orderedInsert_of_forall_rel {α : Type} {r : α → α → Prop} [DecidableRel r]
    {a : α} {l : List α} (h : ∀ y ∈ l, r a y) :
    List.orderedInsert r a l = a :: l := by
  cases l with
  | nil => rfl
  | cons b l => rw [List.orderedInsert, if_pos (h b (List.mem_cons_self b l))]

/-- Helper: filtering commutes with ordered insertion of a kept element
into a sorted list. -/
theorem filter_orderedInsert_pos {α : Type} {r : α → α → Prop} [DecidableRel r]
    [IsTrans α r] (p : α → Bool) (a : α) (l : List α) (hl : List.Sorted r l)
    (hpa : p a = true) :
    (List.orderedInsert r a l).filter p = List.orderedInsert r a (l.filter p) := by
  induction l with
  | nil => simp [hpa]
  | cons b l ih =>
    obtain ⟨hb, hl'⟩ := List.sorted_cons.mp hl
    by_cases hr : r a b
    · by_cases hpb : p b = true
      · simp [List.orderedInsert, List.filter_cons, hpa, hpb, hr]
      · have hpb' : p b = false := Bool.not_eq_true _ |>.mp hpb
        have hall : ∀ y ∈ l.filter p, r a y := fun y hy =>
          IsTrans.trans a b y hr (hb y (List.mem_of_mem_filter hy))
        rw [List.orderedInsert, if_pos hr]
        rw [show (b :: l).filter p = l.filter p by simp [List.filter_cons, hpb']]
        rw [orderedInsert_of_forall_rel hall]
        simp [List.filter_cons, hpa, hpb']
    · by_cases hpb : p b = true
      · simp [List.orderedInsert, List.filter_cons, hpb, hr, ih hl']
      · have hpb' : p b = false := Bool.not_eq_true _ |>.mp hpb
        simp [List.orderedInsert, List.filter_cons, hpb', hr, ih hl']

/-- Helper: filtering out the inserted element of an ordered insertion
recovers the filtered base list. -/
theorem filter_orderedInsert_neg {α : Type} {r : α → α → Prop} [DecidableRel r]
    (p : α → Bool) (a : α) (l : List α) (hpa : p a = false) :
    (List.orderedInsert r a l).filter p = l.filter p := by
  rw [List.orderedInsert_eq_take_drop]
  rw [List.filter_append, List.filter_cons, hpa]
  simp only [Bool.false_eq_true, if_false]
  rw [← List.filter_append, List.takeWhile_append_dropWhile]

/-- Helper: filtering commutes with the stable sort. -/
theorem filter_insertionSort {α : Type} (r : α → α → Prop) [DecidableRel r]
    [IsTotal α r] [IsTrans α r] (p : α → Bool) (l : List α) :
    (List.insertionSort r l).filter p = List.insertionSort r (l.filter p) := by
  induction l with
  | nil => rfl
  | cons a l ih =>
    by_cases hpa : p a = true
    · rw [List.insertionSort,
        filter_orderedInsert_pos p a _ (List.sorted_insertionSort r l) hpa, ih]
      rw [show (a :: l).filter p = a :: l.filter p by simp [List.filter_cons, hpa]]
      rfl
    · have hpa' : p a = false := Bool.not_eq_true _ |>.mp hpa
      rw [List.insertionSort, filter_orderedInsert_neg p a _ hpa', ih]
      rw [show (a :: l).filter p = l.filter p by simp [List.filter_cons, hpa']]

/-- C3: layer ordering. In every rendered frame the painted video clips and
component overlays appear in ascending order of their layer field
(back-to-front), and two active entries whose order already agrees with
the layer order — in particular any two with equal layers — keep their
relative manifest array order (the sort is stable). -/
theorem layer_ordering (m : ProjectManifest) (f : ℤ) (fps : ℚ) :
    ((renderFrame (some m) f fps).videoLayers.Pairwise fun a b => a.layer ≤ b.layer) ∧
    ((renderFrame (some m) f fps).overlayLayers.Pairwise fun a b => a.layer ≤ b.layer) ∧
    (∀ a b : VideoClip, List.Sublist [a, b] m.tracks.video → a.layer ≤ b.layer →
      clipActive f a = true → clipActive f b = true →
      List.Sublist [renderVideoClip f a, renderVideoClip f b]
        (renderFrame (some m) f fps).videoLayers) ∧
    (∀ a b : ComponentOverlay, List.Sublist [a, b] m.tracks.components →
      a.layer ≤ b.layer →
      overlayActive f a = true → overlayActive f b = true →
      List.Sublist [renderOverlay f fps a, renderOverlay f fps b]
        (renderFrame (some m) f fps).overlayLayers) := by
  refine ⟨?_, ?_, ?_, ?_⟩
  · simp only [renderFrame, Option.getD_some, List.pairwise_map]
    exact ((List.sorted_insertionSort videoLayerLe m.tracks.video).filter
      (clipActive f)).imp fun h => h
  · simp only [renderFrame, Option.getD_some, List.pairwise_map]
    exact ((List.sorted_insertionSort overlayLayerLe m.tracks.components).filter
      (overlayActive f)).imp fun h => h
  · intro a b hab hle ha hb
    have h1 : List.Sublist [a, b] (List.insertionSort videoLayerLe m.tracks.video) :=
      List.pair_sublist_insertionSort hle hab
    have h2 := h1.filter (clipActive f)
    rw [show List.filter (clipActive f) [a, b] = [a, b] by
      simp [List.filter_cons, ha, hb]] at h2
    simpa only [renderFrame, Option.getD_some] using h2.map (renderVideoClip f)
  · intro a b hab hle ha hb
    have h1 : List.Sublist [a, b]
        (List.insertionSort overlayLayerLe m.tracks.components) :=
      List.pair_sublist_insertionSort hle hab
    have h2 := h1.filter (overlayActive f)
    rw [show List.filter (overlayActive f) [a, b] = [a, b] by
      simp [List.filter_cons, ha, hb]] at h2
    simpa only [renderFrame, Option.getD_some] using h2.map (renderOverlay f fps)

/-- Demonstration of C3 at the concrete manifest with layers 3, 1, 2: the
painted order of layers is 1, 2, 3 and is ascending. -/
theorem layer_ordering_witness :
    ((renderFrame (some exampleLayerManifest) 0 30).videoLayers.map fun c => c.layer)
        = [1, 2, 3] ∧
    ((renderFrame (some exampleLayerManifest) 0 30).videoLayers.Pairwise
      fun a b => a.layer ≤ b.layer) :=
  ⟨by decide, (layer_ordering exampleLayerManifest 0 30).1⟩

/-- C9: a clip, overlay or audio entry with non-positive durationFrames is
never active: rendering any frame of a manifest holding it equals
rendering the manifest with the entry removed, with no crash. -/
theorem nonpositive_duration_never_active (ver : ℤ) (gs : GlobalSettings)
    (vv v₁ v₂ : List VideoClip) (au a₁ a₂ : List AudioClip)
    (cs k₁ k₂ : List ComponentOverlay)
    (c : VideoClip) (hc : c.durationFrames ≤ 0)
    (co : ComponentOverlay) (hco : co.durationFrames ≤ 0)
    (ac : AudioClip) (hac : ac.durationFrames ≤ 0) (f : ℤ) (fps : ℚ) :
    renderFrame (some ⟨ver, ⟨v₁ ++ c :: v₂, au, cs⟩, gs⟩) f fps =
      renderFrame (some ⟨ver, ⟨v₁ ++ v₂, au, cs⟩, gs⟩) f fps ∧
    renderFrame (some ⟨ver, ⟨vv, au, k₁ ++ co :: k₂⟩, gs⟩) f fps =
      renderFrame (some ⟨ver, ⟨vv, au, k₁ ++ k₂⟩, gs⟩) f fps ∧
    renderFrame (some ⟨ver, ⟨vv, a₁ ++ ac :: a₂, cs⟩, gs⟩) f fps =
      renderFrame (some ⟨ver, ⟨vv, a₁ ++ a₂, cs⟩, gs⟩) f fps := by
  have hcf : clipActive f c = false := by
    simp only [clipActive, sequenceActive, decide_eq_false_iff_not, not_and, not_lt]
    omega
  have hcof : overlayActive f co = false := by
    simp only [overlayActive, sequenceActive, decide_eq_false_iff_not, not_and, not_lt]
    omega
  have hacf : audioActive f ac = false := by
    simp only [audioActive, sequenceActive, decide_eq_false_iff_not, not_and, not_lt]
    omega
  refine ⟨?_, ?_, ?_⟩
  · simp only [renderFrame, Option.getD_some, sortedVideoClips, sortedComponents,
      FrameOutput.mk.injEq]
    refine ⟨trivial, ?_, trivial, trivial⟩
    rw [filter_insertionSort, filter_insertionSort]
    simp only [List.filter_append, List.filter_cons, hcf, Bool.false_eq_true, if_false]
  · simp only [renderFrame, Option.getD_some, sortedVideoClips, sortedComponents,
      FrameOutput.mk.injEq]
    refine ⟨trivial, trivial, ?_, trivial⟩
    rw [filter_insertionSort, filter_insertionSort]
    simp only [List.filter_append, List.filter_cons, hcof, Bool.false_eq_true, if_false]
  · simp only [renderFrame, Option.getD_some, sortedVideoClips, sortedComponents,
      FrameOutput.mk.injEq]
    refine ⟨trivial, trivial, trivial, ?_⟩
    simp only [List.filter_append, List.filter_cons, hacf, Bool.false_eq_true, if_false]

/-- Witness for C9: concrete manifests holding a zero-duration clip, a
negative-duration overlay and a zero-duration audio entry render exactly
as without them. -/
theorem nonpositive_duration_witness :
    renderFrame (some ⟨1, ⟨[exampleWindowClip, exampleBadClip], [], []⟩, ⟨"#000000"⟩⟩)
        15 30 =
      renderFrame (some ⟨1, ⟨[exampleWindowClip], [], []⟩, ⟨"#000000"⟩⟩) 15 30 ∧
    renderFrame (some ⟨1, ⟨[exampleWindowClip], [], [exampleBadOverlay]⟩, ⟨"#000000"⟩⟩)
        15 30 =
      renderFrame (some ⟨1, ⟨[exampleWindowClip], [], []⟩, ⟨"#000000"⟩⟩) 15 30 ∧
    renderFrame (some ⟨1, ⟨[exampleWindowClip], [exampleBadAudio], []⟩, ⟨"#000000"⟩⟩)
        15 30 =
      renderFrame (some ⟨1, ⟨[exampleWindowClip], [], []⟩, ⟨"#000000"⟩⟩) 15 30 := by
  have h := nonpositive_duration_never_active 1 ⟨"#000000"⟩
    [exampleWindowClip] [exampleWindowClip] [] [] [] [] [] [] []
    exampleBadClip (by decide) exampleBadOverlay (by decide) exampleBadAudio (by decide)
    15 30
  exact ⟨h.1, h.2.1, h.2.2⟩

/-- Helper: closed form of the fade-window opacity computed by
calculateTransition, valid at every frame. -/
theorem fade_window_opacity_formula (d f : ℤ) :
    interpolate (interpolate (f : ℚ) ((d - 15 : ℤ) : ℚ) ((d : ℤ) : ℚ) 0 1 false true) 0 1 1 0
        false false =
      1 - (min (f : ℚ) ((d : ℤ) : ℚ) - (((d : ℤ) : ℚ) - 15)) / 15 := by
  simp only [interpolate]
  push_cast
  have h15 : ((d : ℚ) - ((d : ℚ) - 15)) = 15 := by ring
  rw [h15]
  ring

/-- C5: transition-window opacity. Every video clip, whatever its
configured transition, renders at opacity 1 at every local frame before
transitionStart = durationFrames - 15 (the early return of the
transition calculator); a fade clip additionally renders at opacity 1 at
transitionStart itself, monotonically non-increasing opacity across the
window, reaching 1/15 at local frame durationFrames - 1 (progress
interpolated over [transitionStart, durationFrames], clamped right); a
cut or omitted transition renders opacity 1 at every frame. -/
theorem fade_transition_opacity (c : VideoClip) (hc : c.transition = some .fade) :
    (∀ (c₀ : VideoClip) (f : ℤ), f < c₀.durationFrames - 15 →
      (videoClipStyle c₀ f).opacity = some 1) ∧
    (videoClipStyle c (c.durationFrames - 15)).opacity = some 1 ∧
    (∀ f₁ f₂ : ℤ, c.durationFrames - 15 ≤ f₁ → f₁ ≤ f₂ →
      ∃ q₁ q₂ : ℚ, (videoClipStyle c f₁).opacity = some q₁ ∧
        (videoClipStyle c f₂).opacity = some q₂ ∧ q₂ ≤ q₁) ∧
    (videoClipStyle c (c.durationFrames - 1)).opacity = some (1 / 15) ∧
    (∀ (c' : VideoClip) (f : ℤ), (c'.transition = some .cut ∨ c'.transition = none) →
      (videoClipStyle c' f).opacity = some 1) := by
  have hop : ∀ f : ℤ, c.durationFrames - 15 ≤ f →
      (videoClipStyle c f).opacity =
        some (1 - (min (f : ℚ) ((c.durationFrames : ℤ) : ℚ)
          - (((c.durationFrames : ℤ) : ℚ) - 15)) / 15) := by
    intro f hf
    simp only [videoClipStyle, calculateTransition, hc, Option.getD_some,
      if_neg (not_lt.mpr hf)]
    rw [fade_window_opacity_formula c.durationFrames f]
  refine ⟨?_, ?_, ?_, ?_, ?_⟩
  · intro c₀ f hf
    simp only [videoClipStyle, calculateTransition, if_pos hf]
  · rw [hop (c.durationFrames - 15) le_rfl]
    have hmin : min ((c.durationFrames - 15 : ℤ) : ℚ) ((c.durationFrames : ℤ) : ℚ)
        = ((c.durationFrames : ℤ) : ℚ) - 15 := by
      rw [min_eq_left]
      · push_cast
        ring
      · push_cast
        linarith
    push_cast at hmin ⊢
    rw [hmin]
    norm_num
  · intro f₁ f₂ h₁ h₂
    refine ⟨_, _, hop f₁ h₁, hop f₂ (le_trans h₁ h₂), ?_⟩
    have hm : min (f₁ : ℚ) ((c.durationFrames : ℤ) : ℚ)
        ≤ min (f₂ : ℚ) ((c.durationFrames : ℤ) : ℚ) := by
      apply min_le_min _ le_rfl
      exact_mod_cast h₂
    have h15 : (0 : ℚ) < 15 := by norm_num
    have hdiv := (div_le_div_iff_of_pos_right h15).mpr
      (sub_le_sub_right hm (((c.durationFrames : ℤ) : ℚ) - 15))
    linarith
  · rw [hop (c.durationFrames - 1) (by omega)]
    have hmin : min ((c.durationFrames - 1 : ℤ) : ℚ) ((c.durationFrames : ℤ) : ℚ)
        = ((c.durationFrames : ℤ) : ℚ) - 1 := by
      rw [min_eq_left]
      · push_cast
        ring
      · push_cast
        linarith
    push_cast at hmin ⊢
    rw [hmin]
    norm_num
  · intro c2 f h
    have hct : c2.transition.getD .cut = .cut := by
      rcases h with h | h <;> simp [h]
    by_cases hf : f < c2.durationFrames - 15
    · simp [videoClipStyle, calculateTransition, hct, if_pos hf]
    · simp [videoClipStyle, calculateTransition, hct, if_neg hf]

/-- Witness for C5 on the 45-frame fade clip and a cut clip. -/
theorem fade_transition_opacity_witness :
    (videoClipStyle exampleFadeClip 10).opacity = some 1 ∧
    (videoClipStyle exampleGlitchClip 84).opacity = some 1 ∧
    (videoClipStyle { exampleWindowClip with transition := some .slideLeft } 3).opacity
      = some 1 ∧
    (videoClipStyle exampleFadeClip 30).opacity = some 1 ∧
    (∃ q₁ q₂ : ℚ, (videoClipStyle exampleFadeClip 35).opacity = some q₁ ∧
      (videoClipStyle exampleFadeClip 40).opacity = some q₂ ∧ q₂ ≤ q₁) ∧
    (videoClipStyle exampleFadeClip 44).opacity = some (1 / 15) ∧
    (videoClipStyle { exampleWindowClip with transition := some .cut } 50).opacity
      = some 1 := by
  have h := fade_transition_opacity exampleFadeClip rfl
  exact ⟨h.1 exampleFadeClip 10 (by decide), h.1 exampleGlitchClip 84 (by decide),
    h.1 _ 3 (by decide), h.2.1, h.2.2.1 35 40 (by decide) (by decide),
    h.2.2.2.1, h.2.2.2.2 _ 50 (Or.inl rfl)⟩

/-- Counterexample to C4 as stated: at local frame 0 of a 100-frame
glitch clip (before the transition window) the rendered style carries no
horizontal jitter at all, and at local frame 99, where progress is 14/15
> 0.5, the rendered style carries no hue-rotation filter either (the
filter key is overwritten by the empty effects chain), even though the
transition calculator itself produced one. -/
theorem glitch_claim_counterexample :
    (videoClipStyle exampleGlitchClip 0).transform = none ∧
    (videoClipStyle exampleGlitchClip 99).filter = none ∧
    (calculateTransition .glitch 99 85 100).filter = some [.hueRotate 90] := by
  refine ⟨rfl, rfl, ?_⟩
  have hp : (1 / 2 : ℚ) < interpolate ((99 : ℤ) : ℚ) ((85 : ℤ) : ℚ) ((100 : ℤ) : ℚ)
      0 1 false true := by
    norm_num [interpolate, min_def]
  simp only [calculateTransition, if_neg (by decide : ¬(99 : ℤ) < 85), if_pos hp]

/-- C4 (amended): for a glitch clip the transition calculator returns the
sinusoidal horizontal jitter sin(localFrame * 10) * 5 px only at local
frames at or past transitionStart = durationFrames - 15 — before the
window the style is plain full opacity — and its result carries the
hue-rotation filter exactly when progress exceeds 0.5; in the final
rendered clip style the filter slot is always overwritten by the
effects-derived chain (absent when there are no effects), so the
hue-rotation never reaches the rendered style. -/
theorem glitch_transition_behavior (c : VideoClip) (hc : c.transition = some .glitch) :
    (∀ f : ℤ, f < c.durationFrames - 15 →
      videoClipStyle c f =
        { opacity := some 1, transform := none,
          filter := if (effectsFilter c.effects).isEmpty then none
            else some (effectsFilter c.effects) }) ∧
    (∀ f : ℤ, c.durationFrames - 15 ≤ f →
      (videoClipStyle c f).transform = some (.sinJitterPx f)) ∧
    (∀ f : ℤ, c.durationFrames - 15 ≤ f →
      ((calculateTransition .glitch f (c.durationFrames - 15) c.durationFrames).filter
          = some [.hueRotate 90] ↔
        (1 / 2 : ℚ) < interpolate (f : ℚ) ((c.durationFrames - 15 : ℤ) : ℚ)
          ((c.durationFrames : ℤ) : ℚ) 0 1 false true)) ∧
    (∀ f : ℤ, (videoClipStyle c f).filter =
      if (effectsFilter c.effects).isEmpty then none
        else some (effectsFilter c.effects)) := by
  refine ⟨?_, ?_, ?_, ?_⟩
  · intro f hf
    simp [videoClipStyle, calculateTransition, hc, if_pos hf]
  · intro f hf
    simp [videoClipStyle, calculateTransition, hc, if_neg (not_lt.mpr hf)]
  · intro f hf
    simp only [calculateTransition, if_neg (not_lt.mpr hf)]
    by_cases hp : (1 / 2 : ℚ) < interpolate (f : ℚ) ((c.durationFrames - 15 : ℤ) : ℚ)
        ((c.durationFrames : ℤ) : ℚ) 0 1 false true
    · simp [hp]
    · simp [hp]
  · intro f
    simp [videoClipStyle]

/-- Witness for C4 (amended) on the 100-frame glitch clip. -/
theorem glitch_transition_behavior_witness :
    videoClipStyle exampleGlitchClip 0
      = { opacity := some 1, transform := none, filter := none } ∧
    (videoClipStyle exampleGlitchClip 90).transform = some (.sinJitterPx 90) ∧
    (videoClipStyle exampleGlitchClip 90).filter = none := by
  have h := glitch_transition_behavior exampleGlitchClip rfl
  refine ⟨?_, h.2.1 90 (by decide), ?_⟩
  · simpa using h.1 0 (by decide)
  · simpa using h.2.2.2 90

/-- Helper: the span list of KaraokeText renders the word at every index,
with some last-word flag. -/
theorem karaokeSpans_getElem (color hl : String) (t : ℚ) :
    ∀ (ws : List WordTimestamp) (i : ℕ) (w : WordTimestamp),
      ws[i]? = some w →
      ∃ b : Bool, (karaokeSpans color hl t ws)[i]? = some (karaokeSpan color hl t w b) := by
  intro ws
  induction ws with
  | nil => intro i w h; simp at h
  | cons w0 ws ih =>
    intro i w h
    cases ws with
    | nil =>
      cases i with
      | zero =>
        simp only [List.getElem?_cons_zero, Option.some.injEq] at h
        subst h
        exact ⟨true, by simp [karaokeSpans]⟩
      | succ n => simp at h
    | cons w1 ws2 =>
      cases i with
      | zero =>
        simp only [List.getElem?_cons_zero, Option.some.injEq] at h
        subst h
        exact ⟨false, by simp [karaokeSpans]⟩
      | succ n =>
        simp only [List.getElem?_cons_succ] at h
        obtain ⟨b, hb⟩ := ih n w h
        exact ⟨b, by simpa [karaokeSpans, List.getElem?_cons_succ] using hb⟩

/-- C6: karaoke highlight states. With currentTime = localFrame / fps and
distinct base and highlight colours, a karaoke word span is rendered
active (bold, highlight colour, glow) exactly when currentTime lies in
the closed interval [start, end] of the word, past (highlight colour,
not bold) exactly when currentTime > end, and in the base colour
otherwise; the overlay render is precisely these spans over the word
list at currentTime. -/
theorem karaoke_highlight (p : KaraokeTextProps) (frame : ℤ) (fps : ℚ)
    (w : WordTimestamp) (isLast : Bool)
    (hne : karaokeBaseColor p ≠ karaokeHighlightColor p) :
    karaokeRender p frame fps =
      karaokeSpans (karaokeBaseColor p) (karaokeHighlightColor p)
        ((frame : ℚ) / fps) p.wordTimestamps ∧
    (spanIsActiveStyled
        (karaokeSpan (karaokeBaseColor p) (karaokeHighlightColor p)
          ((frame : ℚ) / fps) w isLast) (karaokeHighlightColor p) ↔
      (w.start ≤ (frame : ℚ) / fps ∧ (frame : ℚ) / fps ≤ w.«end»)) ∧
    (spanIsPastStyled
        (karaokeSpan (karaokeBaseColor p) (karaokeHighlightColor p)
          ((frame : ℚ) / fps) w isLast) (karaokeHighlightColor p) ↔
      w.«end» < (frame : ℚ) / fps) ∧
    (spanIsBaseStyled
        (karaokeSpan (karaokeBaseColor p) (karaokeHighlightColor p)
          ((frame : ℚ) / fps) w isLast) (karaokeBaseColor p) ↔
      (¬(w.start ≤ (frame : ℚ) / fps ∧ (frame : ℚ) / fps ≤ w.«end») ∧
        ¬(w.«end» < (frame : ℚ) / fps))) := by
  refine ⟨rfl, ?_, ?_, ?_⟩ <;>
  · by_cases hA : w.start ≤ (frame : ℚ) / fps ∧ (frame : ℚ) / fps ≤ w.«end»
    · by_cases hP : w.«end» < (frame : ℚ) / fps
      · exact absurd hP (not_lt.mpr hA.2)
      · simp [karaokeSpan, karaokeIsActive, karaokeIsPast, spanIsActiveStyled,
          spanIsPastStyled, spanIsBaseStyled, hA, hP, hne, Ne.symm hne]
    · by_cases hP : w.«end» < (frame : ℚ) / fps
      · simp [karaokeSpan, karaokeIsActive, karaokeIsPast, spanIsActiveStyled,
          spanIsPastStyled, spanIsBaseStyled, hA, hP, hne, Ne.symm hne]
      · simp [karaokeSpan, karaokeIsActive, karaokeIsPast, spanIsActiveStyled,
          spanIsPastStyled, spanIsBaseStyled, hA, hP, hne, Ne.symm hne]

/-- Witness for C6 on the words Hi [0, 0.5] and there [0.5, 1] at 30 fps:
frame 10 renders Hi active and there in the base state; frame 20 renders
Hi past and there active. -/
theorem karaoke_highlight_witness :
    spanIsActiveStyled
      (karaokeSpan "#ffffff" "#ffff00" (((10 : ℤ) : ℚ) / 30) exampleHiWord false)
      "#ffff00" ∧
    spanIsBaseStyled
      (karaokeSpan "#ffffff" "#ffff00" (((10 : ℤ) : ℚ) / 30) exampleThereWord true)
      "#ffffff" ∧
    spanIsPastStyled
      (karaokeSpan "#ffffff" "#ffff00" (((20 : ℤ) : ℚ) / 30) exampleHiWord false)
      "#ffff00" ∧
    spanIsActiveStyled
      (karaokeSpan "#ffffff" "#ffff00" (((20 : ℤ) : ℚ) / 30) exampleThereWord true)
      "#ffff00" := by
  refine ⟨?_, ?_, ?_, ?_⟩
  · exact (karaoke_highlight exampleKaraokeProps 10 30 exampleHiWord false
      (by decide)).2.1.mpr (by norm_num [exampleHiWord])
  · exact (karaoke_highlight exampleKaraokeProps 10 30 exampleThereWord true
      (by decide)).2.2.2.mpr (by norm_num [exampleThereWord])
  · exact (karaoke_highlight exampleKaraokeProps 20 30 exampleHiWord false
      (by decide)).2.2.1.mpr (by norm_num [exampleHiWord])
  · exact (karaoke_highlight exampleKaraokeProps 20 30 exampleThereWord true
      (by decide)).2.1.mpr (by norm_num [exampleThereWord])

/-- C10: karaoke boundary double highlight. Both interval tests are
closed, so for consecutive words whose boundary times coincide, at a
local frame whose time equals that boundary both rendered spans are
simultaneously active (bold, glowing, highlighted). -/
theorem karaoke_boundary_double_highlight (p : KaraokeTextProps) (frame : ℤ) (fps : ℚ)
    (pre post : List WordTimestamp) (w₁ w₂ : WordTimestamp)
    (hsplit : p.wordTimestamps = pre ++ w₁ :: w₂ :: post)
    (h₁ : w₁.start ≤ w₁.«end») (h₂ : w₂.start ≤ w₂.«end»)
    (hb : w₁.«end» = w₂.start)
    (ht : (frame : ℚ) / fps = w₁.«end») :
    ∃ s₁ s₂ : WordSpan,
      (karaokeRender p frame fps)[pre.length]? = some s₁ ∧
      (karaokeRender p frame fps)[pre.length + 1]? = some s₂ ∧
      spanIsActiveStyled s₁ (karaokeHighlightColor p) ∧
      spanIsActiveStyled s₂ (karaokeHighlightColor p) := by
  have hw₁ : p.wordTimestamps[pre.length]? = some w₁ := by
    rw [hsplit, List.getElem?_append_right (le_refl pre.length)]
    simp
  have hw₂ : p.wordTimestamps[pre.length + 1]? = some w₂ := by
    rw [hsplit, List.getElem?_append_right (by omega)]
    simp [Nat.add_sub_cancel_left]
  obtain ⟨b₁, hb₁⟩ := karaokeSpans_getElem (karaokeBaseColor p) (karaokeHighlightColor p)
    ((frame : ℚ) / fps) p.wordTimestamps pre.length w₁ hw₁
  obtain ⟨b₂, hb₂⟩ := karaokeSpans_getElem (karaokeBaseColor p) (karaokeHighlightColor p)
    ((frame : ℚ) / fps) p.wordTimestamps (pre.length + 1) w₂ hw₂
  have hAct₁ : w₁.start ≤ (frame : ℚ) / fps ∧ (frame : ℚ) / fps ≤ w₁.«end» := by
    rw [ht]
    exact ⟨h₁, le_refl _⟩
  have hAct₂ : w₂.start ≤ (frame : ℚ) / fps ∧ (frame : ℚ) / fps ≤ w₂.«end» := by
    rw [ht, hb]
    exact ⟨le_refl _, h₂⟩
  refine ⟨_, _, hb₁, hb₂, ?_, ?_⟩
  · simp [spanIsActiveStyled, karaokeSpan, karaokeIsActive, hAct₁]
  · simp [spanIsActiveStyled, karaokeSpan, karaokeIsActive, hAct₂]

/-- Witness for C10 at the shared boundary 0.5 s (frame 15 at 30 fps) of
the words Hi and there. -/
theorem karaoke_boundary_double_highlight_witness :
    ∃ s₁ s₂ : WordSpan,
      (karaokeRender exampleKaraokeProps 15 30)[(0 : ℕ)]? = some s₁ ∧
      (karaokeRender exampleKaraokeProps 15 30)[(1 : ℕ)]? = some s₂ ∧
      spanIsActiveStyled s₁ (karaokeHighlightColor exampleKaraokeProps) ∧
      spanIsActiveStyled s₂ (karaokeHighlightColor exampleKaraokeProps) := by
  have h := karaoke_boundary_double_highlight exampleKaraokeProps 15 30 [] []
    exampleHiWord exampleThereWord rfl (by norm_num [exampleHiWord])
    (by norm_num [exampleThereWord]) rfl (by norm_num [exampleHiWord])
  exact h

/-- C7: typewriter boundary. For non-empty text of length n the number of
characters displayed at local frame f ≥ 0 equals the floor of
interpolate(f, [0, 3n], [0, n]) clamped at n (the charsToShow value):
zero characters at frame 0, all n characters at every frame ≥ 3n, and
the displayed count is monotonically non-decreasing in the frame. -/
theorem typewriter_boundary (text : String) (hn : text.length ≠ 0) :
    (∀ f : ℤ, 0 ≤ f →
      ((bigTitleDisplayText .typewriter text f).length : ℤ) =
        bigTitleCharsToShow text f) ∧
    bigTitleDisplayText .typewriter text 0 = "" ∧
    (∀ f : ℤ, 3 * (text.length : ℤ) ≤ f →
      bigTitleDisplayText .typewriter text f = text) ∧
    (∀ f₁ f₂ : ℤ, 0 ≤ f₁ → f₁ ≤ f₂ →
      (bigTitleDisplayText .typewriter text f₁).length ≤
        (bigTitleDisplayText .typewriter text f₂).length) := by
  have hn0 : (0 : ℚ) < (text.length : ℚ) := by
    exact_mod_cast Nat.pos_of_ne_zero hn
  have h3n : (0 : ℚ) < 3 * (text.length : ℚ) := by linarith
  have hval : ∀ f : ℤ, bigTitleCharsToShow text f =
      ⌊min (f : ℚ) (3 * (text.length : ℚ)) / (3 * (text.length : ℚ))
        * (text.length : ℚ)⌋ := by
    intro f
    unfold bigTitleCharsToShow interpolate
    norm_num
  have hub : ∀ f : ℤ, bigTitleCharsToShow text f ≤ (text.length : ℤ) := by
    intro f
    rw [hval f]
    have hle : min (f : ℚ) (3 * (text.length : ℚ)) / (3 * (text.length : ℚ))
        * (text.length : ℚ) ≤ (text.length : ℚ) := by
      have hq : min (f : ℚ) (3 * (text.length : ℚ)) / (3 * (text.length : ℚ)) ≤ 1 :=
        (div_le_one h3n).mpr (min_le_right _ _)
      calc min (f : ℚ) (3 * (text.length : ℚ)) / (3 * (text.length : ℚ))
            * (text.length : ℚ)
          ≤ 1 * (text.length : ℚ) :=
            mul_le_mul_of_nonneg_right hq (le_of_lt hn0)
        _ = (text.length : ℚ) := one_mul _
    calc ⌊min (f : ℚ) (3 * (text.length : ℚ)) / (3 * (text.length : ℚ))
          * (text.length : ℚ)⌋
        ≤ ⌊((text.length : ℤ) : ℚ)⌋ := Int.floor_le_floor (by push_cast; exact hle)
      _ = (text.length : ℤ) := Int.floor_intCast _
  have hlb : ∀ f : ℤ, 0 ≤ f → 0 ≤ bigTitleCharsToShow text f := by
    intro f hf
    rw [hval f]
    have h0 : (0 : ℚ) ≤ min (f : ℚ) (3 * (text.length : ℚ)) :=
      le_min (by exact_mod_cast hf) (le_of_lt h3n)
    have : (0 : ℚ) ≤ min (f : ℚ) (3 * (text.length : ℚ)) / (3 * (text.length : ℚ))
        * (text.length : ℚ) :=
      mul_nonneg (div_nonneg h0 (le_of_lt h3n)) (le_of_lt hn0)
    exact Int.le_floor.mpr (by push_cast; exact this)
  have hmono : ∀ f₁ f₂ : ℤ, f₁ ≤ f₂ →
      bigTitleCharsToShow text f₁ ≤ bigTitleCharsToShow text f₂ := by
    intro f₁ f₂ h
    rw [hval f₁, hval f₂]
    apply Int.floor_le_floor
    apply mul_le_mul_of_nonneg_right _ (le_of_lt hn0)
    apply (div_le_div_iff_of_pos_right h3n).mpr
    exact min_le_min (by exact_mod_cast h) (le_refl _)
  have hlen : ∀ f : ℤ, 0 ≤ f →
      ((bigTitleDisplayText .typewriter text f).length : ℤ) =
        bigTitleCharsToShow text f := by
    intro f hf
    have hmk : ∀ l : List Char, (String.mk l).length = l.length := fun _ => rfl
    have hnat : (bigTitleDisplayText .typewriter text f).length
        = min (bigTitleCharsToShow text f).toNat text.length := by
      show (String.mk (text.toList.take (bigTitleCharsToShow text f).toNat)).length = _
      rw [hmk, List.length_take]
      rfl
    rw [hnat]
    have hle : (bigTitleCharsToShow text f).toNat ≤ text.length :=
      Int.toNat_le.mpr (hub f)
    rw [min_eq_left hle]
    exact_mod_cast Int.toNat_of_nonneg (hlb f hf)
  refine ⟨hlen, ?_, ?_, ?_⟩
  · have hzero : bigTitleCharsToShow text 0 = 0 := by
      rw [hval 0]
      have : min ((0 : ℤ) : ℚ) (3 * (text.length : ℚ)) = 0 := by
        rw [Int.cast_zero, min_eq_left (le_of_lt h3n)]
      rw [this]
      norm_num
    simp [bigTitleDisplayText, jsSlice, hzero]
  · intro f hf
    have hfull : bigTitleCharsToShow text f = (text.length : ℤ) := by
      rw [hval f]
      have : min ((f : ℤ) : ℚ) (3 * (text.length : ℚ)) = 3 * (text.length : ℚ) := by
        rw [min_eq_right]
        exact_mod_cast hf
      rw [this, div_self (ne_of_gt h3n), one_mul]
      exact_mod_cast Int.floor_intCast (text.length : ℤ)
    have hto : (bigTitleCharsToShow text f).toNat = text.length := by
      rw [hfull]
      exact Int.toNat_natCast _
    simp only [bigTitleDisplayText, if_pos rfl, jsSlice, hto]
    apply String.ext
    simp [List.take_length]
  · intro f₁ f₂ hf₁ hf₂
    have e₁ := hlen f₁ hf₁
    have e₂ := hlen f₂ (le_trans hf₁ hf₂)
    have e₃ := hmono f₁ f₂ hf₂
    omega

/-- Witness for C7 on the text HELLO: empty at frame 0, full at frame 15,
monotone between frames 7 and 9, and the displayed count at frame 7
equals the charsToShow formula. -/
theorem typewriter_boundary_witness :
    bigTitleDisplayText .typewriter "HELLO" 0 = "" ∧
    bigTitleDisplayText .typewriter "HELLO" 15 = "HELLO" ∧
    (bigTitleDisplayText .typewriter "HELLO" 7).length ≤
      (bigTitleDisplayText .typewriter "HELLO" 9).length ∧
    ((bigTitleDisplayText .typewriter "HELLO" 7).length : ℤ) =
      bigTitleCharsToShow "HELLO" 7 := by
  have h := typewriter_boundary "HELLO" (by decide)
  exact ⟨h.2.1, h.2.2.1 15 (by decide), h.2.2.2 7 9 (by decide) (by decide),
    h.1 7 (by decide)⟩
